import Mathlib

/-!
Verification development for the `drizzle-elysia-query` package
(`src/database.ts`: the guarded-execution wrapper `database` and the
query dispatcher `query`).

The TypeScript code is shallowly embedded: JavaScript runtime values are
the inductive `JVal`; a thrown failure of an awaited operation is the
`OpResult.raise` constructor; the elysia `error(code, response)` helper
is `elysiaError`, which builds a plain object owning the properties
`code` and `response` (exactly what the dispatcher's error-detection
test at the top of its post-processing looks for).  The external
collaborators (the drizzle ORM layer and the TypeBox `Value` API) are
modelled at their interface boundary: the ORM handle is a function from
the select call the dispatcher builds to a raw result, and a TypeBox
schema is a record `SchemaOps` of its `type === "array"` test and its
`Convert` / `Encode` / `Check` / `Clean` / `Cast` operations, with a
concrete object-schema instantiation (`ObjectSchema`) used wherever a
claim depends on the library's documented behaviour.
-/

set_option autoImplicit false

namespace DrizzleElysiaQuery

/-- A JavaScript runtime value, as far as the dispatcher inspects one:
`undefined`, `null`, primitives, arrays and plain objects (an object is
its own-property list; real JS objects have pairwise distinct keys). -/
inductive JVal where
  | undef
  | null
  | bool (b : Bool)
  | num (n : Int)
  | str (s : String)
  | arr (elems : List JVal)
  | obj (fields : List (String × JVal))

namespace JVal

/-- `v === null`. -/
def isNull : JVal → Bool
  | .null => true
  | _ => false

/-- `v === undefined`. -/
def isUndef : JVal → Bool
  | .undef => true
  | _ => false

/-- `typeof v === "object"` — true for `null`, arrays and objects. -/
def isTypeofObject : JVal → Bool
  | .null => true
  | .arr _ => true
  | .obj _ => true
  | _ => false

/-- `Array.isArray(v)`. -/
def isArray : JVal → Bool
  | .arr _ => true
  | _ => false

/-- `Object.hasOwn(v, key)` — only ever tested on objects here. -/
def hasOwn (v : JVal) (key : String) : Bool :=
  match v with
  | .obj fields => fields.any (fun p => p.1 == key)
  | _ => false

/-- `Array.isArray(v) && v.length !== 1`. -/
def isArrayLenNeOne : JVal → Bool
  | .arr xs => xs.length != 1
  | _ => false

/-- `v[0]` on an array (`undefined` when out of range; the dispatcher
only indexes arrays it has already checked to have length one). -/
def index0 : JVal → JVal
  | .arr xs => xs.headD .undef
  | _ => .undef

end JVal

/-- The object built by elysia's `error(code, response)`: it owns a
`code` and a `response` property. -/
def elysiaError (code : Int) (response : String) : JVal :=
  .obj [("code", .num code), ("response", .str response)]

/-- Completion of an awaited asynchronous operation: normal completion
with a value, or a raised (thrown) failure. -/
inductive OpResult where
  | ok (v : JVal)
  | raise (e : String)

/-- A column reference of the table descriptor (opaque handle; only its
identity matters to the dispatcher). -/
abbrev Column := String

/-- An opaque SQL boolean filter expression (the `query` option). -/
abbrev Filter := String

/-- An opaque SQL ordering expression (the `order` option). -/
abbrev OrderExpr := String

/-- `string | number`, the identifier type of the `id` option. -/
inductive Identifier where
  | num (n : Int)
  | str (s : String)
  deriving DecidableEq, Repr

/-- A `where` clause as the dispatcher builds it: `eq(idColumn, id)`,
the caller's raw filter, or their conjunction via `and`. -/
inductive WhereClause where
  | eqIdCol (idColumn : Column) (id : Identifier)
  | raw (q : Filter)
  | conj (a b : WhereClause)
  deriving DecidableEq, Repr

/-- An `orderBy` clause as the dispatcher builds it: the caller's raw
ordering or `desc(idColumn)`. -/
inductive OrderClause where
  | raw (o : OrderExpr)
  | descCol (c : Column)
  deriving DecidableEq, Repr

/-- One concrete `select().from(table)` read, as assembled by the
dispatcher's execution-strategy branches. -/
structure SelectCall where
  table : String
  whereClause : Option WhereClause
  orderBy : Option OrderClause
  deriving DecidableEq, Repr

/-- The drizzle ORM handle at its interface boundary: each select call
the dispatcher can build yields raw rows or raises. -/
def Drizzle := SelectCall → OpResult

/-- A TypeBox schema at its interface boundary (spec section 6): the
`type === "array"` test and the `Value.Convert` / `Value.Encode` /
`Value.Check` / `Value.Clean` / `Value.Cast` operations.  `Encode` may
raise, modelled by `Except`. -/
structure SchemaOps where
  isArray : Bool
  convert : JVal → JVal
  encode : JVal → Except String JVal
  check : JVal → Bool
  clean : JVal → JVal
  cast : JVal → JVal

/-- The guarded-execution wrapper `database(query, operation)` from
`src/database.ts`.  The process-wide handle `_database` is passed
explicitly as `handle` (`none` before `databaseInitialize` has run).
The second component records whether the supplied operation was
invoked. -/
def database (handle : Option Drizzle) (op : Drizzle → OpResult)
    (operation : String) : JVal × Bool :=
  match handle with
  | none => (elysiaError 503 "database is not ready", false)
  | some drizzle =>
    match op drizzle with
    | .ok v => (v, true)
    | .raise _ => (elysiaError 500 ("couldn\x27t " ++ operation), true)

/-- `s.endsWith(suffix)` of JavaScript: the last `suffix.length`
characters equal the suffix. -/
def jsEndsWith (s suffix : String) : Bool :=
  s.takeRight suffix.length == suffix

/-- `_formatItem(name, multiple)`: the display name used in
diagnostics; the table name verbatim in plural mode, else the name with
its last character stripped (`substring(0, length - 1)`), additionally
rewriting a resulting trailing "ie" to "y". -/
def _formatItem (name : String) (multiple : Bool) : String :=
  if multiple then name
  else
    let shortened := name.dropRight 1
    if jsEndsWith shortened "ie" then shortened.dropRight 2 ++ "y"
    else shortened

/-- A Selection Request: the argument object of `query()`.  `table` is
the table descriptor, modelled by the name `getTableName` exposes;
`idPair` bundles the `id` and `idColumn` options (the source's
parameter union supplies both or neither); `filter` is the `query`
option; `complex` is the custom query function; `opq` the `opaque`
flag (default `false`). -/
structure Request where
  table : String
  schema : SchemaOps
  idPair : Option (Identifier × Column)
  filter : Option Filter
  order : Option OrderExpr
  complex : Option (Drizzle → OpResult)
  opq : Bool

/-- The asynchronous operation `query()` passes to `database`: the
five execution-strategy branches of the dispatcher (custom first, then
filter/identifier combinations). -/
def buildOp (req : Request) : Drizzle → OpResult := fun drizzle =>
  match req.complex with
  | some c => c drizzle
  | none =>
    match req.filter, req.idPair with
    | some q, some (i, col) =>
        drizzle { table := req.table
                  whereClause := some (.conj (.eqIdCol col i) (.raw q))
                  orderBy := some (match req.order with
                    | some o => .raw o
                    | none => .descCol col) }
    | some q, none =>
        match req.order with
        | some o =>
            drizzle { table := req.table
                      whereClause := some (.raw q)
                      orderBy := some (.raw o) }
        | none =>
            drizzle { table := req.table
                      whereClause := some (.raw q)
                      orderBy := none }
    | none, some (i, col) =>
        drizzle { table := req.table
                  whereClause := some (.eqIdCol col i)
                  orderBy := some (match req.order with
                    | some o => .raw o
                    | none => .descCol col) }
    | none, none =>
        match req.order with
        | some o =>
            drizzle { table := req.table
                      whereClause := none
                      orderBy := some (.raw o) }
        | none =>
            drizzle { table := req.table
                      whereClause := none
                      orderBy := none }

/-- Which `return` statement of the dispatcher produced the outcome. -/
inductive Branch where
  | errPassthrough
  | notFound
  | checkFailed
  | success
  deriving DecidableEq, Repr

/-- The error-detection test at the top of the dispatcher's
post-processing: `typeof values === "object" && !Array.isArray(values)
&& values !== null && Object.hasOwn(values, "code") &&
Object.hasOwn(values, "response")`. -/
def errLike (values : JVal) : Bool :=
  values.isTypeofObject && !values.isArray && !values.isNull
    && values.hasOwn "code" && values.hasOwn "response"

/-- The dispatcher's not-found test: `!multiple &&
((Array.isArray(values) && values.length !== 1) || values ===
undefined)`. -/
def notFoundCond (s : SchemaOps) (values : JVal) : Bool :=
  !s.isArray && (values.isArrayLenNeOne || values.isUndef)

/-- The converted value: `Value.Convert` of the whole raw result in
plural mode, of `values[0]` (array) or `values` itself otherwise. -/
def convertedOf (s : SchemaOps) (values : JVal) : JVal :=
  if s.isArray then s.convert values
  else s.convert (if values.isArray then values.index0 else values)

/-- The value after the encoding pass: `Value.Encode` when it
completes, the pre-encoding converted value when it raises (the
failure is logged and swallowed). -/
def encodedOf (s : SchemaOps) (values : JVal) : JVal :=
  match s.encode (convertedOf s values) with
  | .ok v => v
  | .error _ => convertedOf s values

/-- The dispatcher's post-processing of the guarded execution's result
`values` (lines 217-260 of the source): error passthrough, not-found
classification, conversion, encoding pass, validation gate, and
clean-and-cast, tagged with the branch that returned. -/
def queryResultOf (s : SchemaOps) (title : String) (opq : Bool)
    (values : JVal) : JVal × Branch :=
  if errLike values then (values, .errPassthrough)
  else if notFoundCond s values then
    (if opq then .undef else elysiaError 404 (title ++ " not found"),
      .notFound)
  else
    let value := encodedOf s values
    if !s.check value then
      (if opq then .undef
        else elysiaError 500 ("couldn\x27t retrieve " ++ title),
        .checkFailed)
    else (s.cast (s.clean value), .success)

/-- `const title = _formatItem(getTableName(table), multiple)`. -/
def titleOf (req : Request) : String :=
  _formatItem req.table req.schema.isArray

/-- The full dispatcher `query()`: resolve the display name, run the
selected operation through guarded execution with the label
`query {title}`, then post-process the result. -/
def query (handle : Option Drizzle) (req : Request) : JVal × Branch :=
  queryResultOf req.schema (titleOf req) req.opq
    (database handle (buildOp req) ("query " ++ titleOf req)).1

/-! ### A concrete TypeBox instantiation

Claims about the validation library's concrete behaviour (empty arrays
validate against array schemas; `Clean` strips undeclared properties and
`Cast` is the identity on valid values) are settled against this model
of `Type.Object` / `Type.Array` schemas over primitive field types,
following the collaborator contract of spec section 6. -/

/-- A primitive field type of a `Type.Object` schema. -/
inductive FieldTy where
  | int
  | string
  | boolean
  deriving DecidableEq, Repr

/-- `Value.Check` for a primitive field type. -/
def FieldTy.checkVal : FieldTy → JVal → Bool
  | .int, .num _ => true
  | .string, .str _ => true
  | .boolean, .bool _ => true
  | _, _ => false

/-- `Value.Convert` for a primitive field type: lenient coercion of
primitive-compatible values, the identity on already-valid ones. -/
def FieldTy.convertVal : FieldTy → JVal → JVal
  | .int, .str s =>
      match s.toInt? with
      | some n => .num n
      | none => .str s
  | .int, .bool b => .num (if b then 1 else 0)
  | .boolean, .num 0 => .bool false
  | .boolean, .num 1 => .bool true
  | _, v => v

/-- The default a `Value.Cast` repair fills in for a missing or
invalid primitive field. -/
def FieldTy.defaultVal : FieldTy → JVal
  | .int => .num 0
  | .string => .str ""
  | .boolean => .bool false

/-- A `Type.Object` schema: the declared properties and their types. -/
structure ObjectSchema where
  fields : List (String × FieldTy)

/-- First own property of a JS object's property list under a key. -/
def lookupField (l : List (String × JVal)) (k : String) : Option JVal :=
  (l.find? (fun p => p.1 == k)).map (fun p => p.2)

namespace ObjectSchema

/-- `Value.Check` of a `Type.Object` schema: the value is an object and
every declared property is present with the declared type (additional
properties are allowed, as by TypeBox's default). -/
def check (s : ObjectSchema) : JVal → Bool
  | .obj l => s.fields.all (fun p =>
      match lookupField l p.1 with
      | some v => p.2.checkVal v
      | none => false)
  | _ => false

/-- `Value.Convert` of a `Type.Object` schema: coerce each declared
property leniently, leave undeclared properties and non-objects
alone. -/
def convert (s : ObjectSchema) : JVal → JVal
  | .obj l => .obj (l.map (fun p =>
      match s.fields.find? (fun q => q.1 == p.1) with
      | some q => (p.1, q.2.convertVal p.2)
      | none => p))
  | v => v

/-- `Value.Clean` of a `Type.Object` schema: drop every property not
declared in the schema. -/
def clean (s : ObjectSchema) : JVal → JVal
  | .obj l => .obj (l.filter (fun p => s.fields.any (fun q => q.1 == p.1)))
  | v => v

/-- `Value.Cast` of a `Type.Object` schema: the identity on values
that check, otherwise a repaired object built from the declared
properties. -/
def cast (s : ObjectSchema) (v : JVal) : JVal :=
  if s.check v then v
  else .obj (s.fields.map (fun p =>
    (p.1, match v with
      | .obj l =>
          match lookupField l p.1 with
          | some x => if p.2.checkVal x then x else p.2.defaultVal
          | none => p.2.defaultVal
      | _ => p.2.defaultVal)))

/-- The `SchemaOps` interface of a `Type.Object` schema.  A plain
object schema declares no transform codec, so `Value.Encode`
completes and is the identity. -/
def ops (s : ObjectSchema) : SchemaOps where
  isArray := false
  convert := s.convert
  encode := fun v => Except.ok v
  check := s.check
  clean := s.clean
  cast := s.cast

end ObjectSchema

/-- A `Type.Array` schema over a `Type.Object` item schema. -/
structure ArraySchema where
  item : ObjectSchema

namespace ArraySchema

/-- `Value.Check` of a `Type.Array` schema: an array whose every
element checks against the item schema (any length validates). -/
def check (s : ArraySchema) : JVal → Bool
  | .arr xs => xs.all s.item.check
  | _ => false

/-- `Value.Convert` of a `Type.Array` schema: convert each element. -/
def convert (s : ArraySchema) : JVal → JVal
  | .arr xs => .arr (xs.map s.item.convert)
  | v => v

/-- `Value.Clean` of a `Type.Array` schema: clean each element. -/
def clean (s : ArraySchema) : JVal → JVal
  | .arr xs => .arr (xs.map s.item.clean)
  | v => v

/-- `Value.Cast` of a `Type.Array` schema: the identity on values that
check, otherwise an element-wise repair (the empty array on
non-arrays). -/
def cast (s : ArraySchema) (v : JVal) : JVal :=
  if s.check v then v
  else
    match v with
    | .arr xs => .arr (xs.map s.item.cast)
    | _ => .arr []

/-- The `SchemaOps` interface of a `Type.Array` schema. -/
def ops (s : ArraySchema) : SchemaOps where
  isArray := true
  convert := s.convert
  encode := fun v => Except.ok v
  check := s.check
  clean := s.clean
  cast := s.cast

end ArraySchema

/-! ### Concrete fixtures

A user table with a singular `Type.Object({id, name})` schema, the
matching array schema, and a handful of ORM handles with fixed
behaviour, used by the witnesses below. -/

/-- `Type.Object({id: Type.Integer(), name: Type.String()})`. -/
def userSchema : ObjectSchema :=
  ⟨[("id", .int), ("name", .string)]⟩

/-- `Type.Array(userSchema)`. -/
def usersArraySchema : ArraySchema :=
  ⟨userSchema⟩

/-- A row that satisfies `userSchema` and carries one extra column. -/
def aliceRow : JVal :=
  .obj [("id", .num 1), ("name", .str "alice"), ("extra", .bool true)]

/-- An ORM handle whose every select yields the single row. -/
def rowsDrizzle : Drizzle := fun _ => .ok (.arr [aliceRow])

/-- An ORM handle whose every select yields no rows. -/
def emptyRowsDrizzle : Drizzle := fun _ => .ok (.arr [])

/-- An ORM handle whose every select raises. -/
def raisingDrizzle : Drizzle := fun _ => .raise "connection reset"

/-- A singular by-id request on the `users` table. -/
def userByIdReq : Request where
  table := "users"
  schema := userSchema.ops
  idPair := some (.num 1, "users.id")
  filter := none
  order := none
  complex := none
  opq := false

/-- The same request with the opaque flag set. -/
def userByIdOpaqueReq : Request :=
  { userByIdReq with opq := true }

/-- A plural full-table request on the `users` table. -/
def usersListReq : Request where
  table := "users"
  schema := usersArraySchema.ops
  idPair := none
  filter := none
  order := none
  complex := none
  opq := false

/-- A record one could legitimately select, which nonetheless owns both
a `code` and a `response` property. -/
def confusingRecord : JVal :=
  .obj [("code", .str "ABC"), ("response", .str "ok"), ("id", .num 1)]

/-- A custom query function returning `confusingRecord`. -/
def customOp : Drizzle → OpResult := fun _ => .ok confusingRecord

/-- A request supplying both the custom query function and an
identifier (plus an ordering). -/
def customWithIdReq : Request where
  table := "users"
  schema := userSchema.ops
  idPair := some (.num 1, "users.id")
  filter := none
  order := some "users.name ASC"
  complex := some customOp
  opq := false

/-- The custom request with every other selection field absent. -/
def customOnlyReq : Request where
  table := "users"
  schema := userSchema.ops
  idPair := none
  filter := none
  order := none
  complex := some customOp
  opq := false

/-- The same schema interface with the encoding pass disabled (an
identity `Value.Encode`): the reference point for stating that a
raising encode pass leaves the outcome unchanged. -/
def SchemaOps.withIdEncode (s : SchemaOps) : SchemaOps :=
  { s with encode := fun v => Except.ok v }

/-- A schema whose declared transform codec raises on every encode
pass, the rest of its interface trivial. -/
def failingEncodeSchema : SchemaOps where
  isArray := false
  convert := fun v => v
  encode := fun _ => Except.error "unable to encode value"
  check := fun _ => true
  clean := fun v => v
  cast := fun v => v

/-- A by-id request whose schema's encode pass always raises. -/
def encodeFailReq : Request where
  table := "users"
  schema := failingEncodeSchema
  idPair := some (.num 1, "users.id")
  filter := none
  order := none
  complex := none
  opq := false

/-- An ORM handle yielding a row that fails `userSchema`'s validity
check (the `name` property is missing). -/
def invalidRowDrizzle : Drizzle := fun _ => .ok (.arr [.obj [("id", .num 1)]])

/-- An ORM handle yielding a single row with exactly the declared
`userSchema` properties and nothing else. -/
def bobRowDrizzle : Drizzle :=
  fun _ => .ok (.arr [.obj [("id", .num 2), ("name", .str "bob")]])

/-! ### General lemmas about the embedding -/

theorem database_ok {d : Drizzle} {op : Drizzle → OpResult}
    {label : String} {v : JVal} (h : op d = .ok v) :
    database (some d) op label = (v, true) := by
  simp [database, h]

theorem database_raise {d : Drizzle} {op : Drizzle → OpResult}
    {label e : String} (h : op d = .raise e) :
    database (some d) op label =
      (elysiaError 500 ("couldn\x27t " ++ label), true) := by
  simp [database, h]

theorem query_ok_eq {d : Drizzle} {req : Request} {values : JVal}
    (h : buildOp req d = .ok values) :
    query (some d) req =
      queryResultOf req.schema (titleOf req) req.opq values := by
  unfold query
  rw [database_ok h]

theorem errLike_elysiaError (code : Int) (response : String) :
    errLike (elysiaError code response) = true := rfl

theorem queryResultOf_errLike {s : SchemaOps} {title : String}
    {opq : Bool} {values : JVal} (h : errLike values = true) :
    queryResultOf s title opq values = (values, .errPassthrough) := by
  simp [queryResultOf, h]

theorem queryResultOf_snd_eq_notFound (s : SchemaOps) (title : String)
    (opq : Bool) (values : JVal) :
    (queryResultOf s title opq values).2 = .notFound ↔
      errLike values = false ∧ notFoundCond s values = true := by
  unfold queryResultOf
  by_cases h1 : errLike values
  · simp [h1]
  · by_cases h2 : notFoundCond s values
    · simp [h1, h2]
    · by_cases h3 : s.check (encodedOf s values) <;> simp [h1, h2, h3]

theorem queryResultOf_notFound_result {s : SchemaOps} {title : String}
    {opq : Bool} {values : JVal} (herr : errLike values = false)
    (hnf : notFoundCond s values = true) :
    queryResultOf s title opq values =
      (if opq then .undef else elysiaError 404 (title ++ " not found"),
        .notFound) := by
  simp [queryResultOf, herr, hnf]

theorem queryResultOf_success {s : SchemaOps} {title : String}
    {opq : Bool} {values : JVal} (herr : errLike values = false)
    (hnf : notFoundCond s values = false)
    (hchk : s.check (encodedOf s values) = true) :
    queryResultOf s title opq values =
      (s.cast (s.clean (encodedOf s values)), .success) := by
  simp [queryResultOf, herr, hnf, hchk]

theorem list_map_eq_self {α : Type} {f : α → α} {l : List α}
    (h : ∀ a ∈ l, f a = a) : l.map f = l := by
  induction l with
  | nil => rfl
  | cons a t ih =>
    simp only [List.map_cons, h a (List.mem_cons_self a t),
      ih fun b hb => h b (List.mem_cons_of_mem a hb)]

theorem FieldTy.convertVal_of_checkVal {ty : FieldTy} {v : JVal}
    (h : ty.checkVal v = true) : ty.convertVal v = v := by
  cases ty <;> cases v <;> first | rfl | simp_all [FieldTy.checkVal]

theorem lookupField_cons_of_pos {a : String × JVal}
    {l : List (String × JVal)} {k : String} (h : (a.1 == k) = true) :
    lookupField (a :: l) k = some a.2 := by
  unfold lookupField
  rw [@List.find?_cons_of_pos _ (fun p => p.1 == k) a l h]
  rfl

theorem lookupField_cons_of_neg {a : String × JVal}
    {l : List (String × JVal)} {k : String} (h : (a.1 == k) = false) :
    lookupField (a :: l) k = lookupField l k := by
  unfold lookupField
  rw [@List.find?_cons_of_neg _ (fun p => p.1 == k) a l (by simp [h])]

theorem lookupField_of_nodup {l : List (String × JVal)}
    {p : String × JVal} (hnd : (l.map Prod.fst).Nodup) (hp : p ∈ l) :
    lookupField l p.1 = some p.2 := by
  induction l with
  | nil => cases hp
  | cons a t ih =>
    rw [List.map_cons] at hnd
    have hnd' := List.nodup_cons.mp hnd
    rcases List.mem_cons.mp hp with rfl | hmem
    · exact lookupField_cons_of_pos (by simp)
    · have hne : (a.1 == p.1) = false := by
        simp only [beq_eq_false_iff_ne, ne_eq]
        rintro h
        exact hnd'.1 (h ▸ List.mem_map_of_mem Prod.fst hmem)
      rw [lookupField_cons_of_neg hne]
      exact ih hnd'.2 hmem

theorem ObjectSchema.checkVal_of_check {s : ObjectSchema}
    {l : List (String × JVal)} (hchk : s.check (.obj l) = true)
    {k : String} {ty : FieldTy} (hf : (k, ty) ∈ s.fields) :
    ∃ v, lookupField l k = some v ∧ ty.checkVal v = true := by
  unfold ObjectSchema.check at hchk
  have hall := List.all_eq_true.mp hchk (k, ty) hf
  cases hl : lookupField l k with
  | none => rw [hl] at hall; cases hall
  | some v => rw [hl] at hall; exact ⟨v, rfl, hall⟩

theorem ObjectSchema.convert_of_check {s : ObjectSchema}
    {l : List (String × JVal)} (hchk : s.check (.obj l) = true)
    (hnd : (l.map Prod.fst).Nodup) : s.convert (.obj l) = .obj l := by
  simp only [ObjectSchema.convert]
  congr 1
  apply list_map_eq_self
  intro p hp
  cases hfind : s.fields.find? (fun q => q.1 == p.1) with
  | none => simp only [hfind]
  | some q =>
    have hq1 : q.1 = p.1 := by
      have hbeq := List.find?_some hfind
      exact eq_of_beq hbeq
    have hqmem : (p.1, q.2) ∈ s.fields := by
      rw [show ((p.1, q.2) : String × FieldTy) = q by rw [← hq1]]
      exact List.mem_of_find?_eq_some hfind
    obtain ⟨v, hv, hcv⟩ := ObjectSchema.checkVal_of_check hchk hqmem
    rw [lookupField_of_nodup hnd hp] at hv
    obtain rfl : v = p.2 := (Option.some.inj hv).symm
    simp only [hfind, FieldTy.convertVal_of_checkVal hcv, Prod.mk.eta]

theorem lookupField_filter_declared {s : ObjectSchema}
    {l : List (String × JVal)} {k : String}
    (hk : s.fields.any (fun q => q.1 == k) = true) :
    lookupField
        (l.filter (fun p => s.fields.any (fun q => q.1 == p.1))) k =
      lookupField l k := by
  induction l with
  | nil => rfl
  | cons a t ih =>
    by_cases ha : (a.1 == k) = true
    · have hpred : s.fields.any (fun q => q.1 == a.1) = true := by
        rw [show a.1 = k from eq_of_beq ha]
        exact hk
      rw [@List.filter_cons_of_pos _
          (fun p => s.fields.any fun q => q.1 == p.1) a t hpred,
        lookupField_cons_of_pos ha, lookupField_cons_of_pos ha]
    · have ha' : (a.1 == k) = false := by
        cases hab : (a.1 == k) with
        | false => rfl
        | true => exact absurd hab ha
      by_cases hpred : s.fields.any (fun q => q.1 == a.1) = true
      · rw [@List.filter_cons_of_pos _
            (fun p => s.fields.any fun q => q.1 == p.1) a t hpred,
          lookupField_cons_of_neg ha', lookupField_cons_of_neg ha', ih]
      · rw [@List.filter_cons_of_neg _
            (fun p => s.fields.any fun q => q.1 == p.1) a t hpred,
          lookupField_cons_of_neg ha', ih]

theorem ObjectSchema.check_clean {s : ObjectSchema}
    {l : List (String × JVal)} (hchk : s.check (.obj l) = true) :
    s.check (s.clean (.obj l)) = true := by
  unfold ObjectSchema.clean
  unfold ObjectSchema.check at hchk ⊢
  rw [List.all_eq_true] at hchk ⊢
  intro p hp
  have hk : s.fields.any (fun q => q.1 == p.1) = true :=
    List.any_eq_true.mpr ⟨p, hp, by simp⟩
  have := hchk p hp
  simpa [lookupField_filter_declared hk] using this

theorem ObjectSchema.cast_of_check {s : ObjectSchema} {v : JVal}
    (h : s.check v = true) : s.cast v = v := by
  simp [ObjectSchema.cast, h]

/-! ### Claims -/

/-- C3: every call to the guarded execution wrapper made before the
database handle has been bound returns the service-unavailable outcome
(status 503, message "database is not ready") and never invokes the
supplied operation (the invocation flag stays `false`). -/
theorem claim_C3_unbound_service_unavailable
    (op : Drizzle → OpResult) (label : String) :
    database none op label =
      (elysiaError 503 "database is not ready", false) := rfl

/-- C4: with a bound handle, an operation that raises yields the
status-500 outcome with message exactly "couldn't {label}"; the query
dispatcher passes the label "query {display name}", so a raise during
its execution step surfaces as "couldn't query {display name}" (the
error object is then handed through verbatim by the dispatcher's
error-detection test). -/
theorem claim_C4_raise_yields_couldnt_query :
    (∀ (d : Drizzle) (op : Drizzle → OpResult) (label e : String),
        op d = .raise e →
        database (some d) op label =
          (elysiaError 500 ("couldn\x27t " ++ label), true)) ∧
    (∀ (d : Drizzle) (req : Request) (e : String),
        buildOp req d = .raise e →
        query (some d) req =
          (elysiaError 500 ("couldn\x27t query " ++ titleOf req),
            .errPassthrough)) := by
  constructor
  · intro d op label e h
    exact database_raise h
  · intro d req e h
    unfold query
    rw [database_raise h, queryResultOf_errLike (errLike_elysiaError _ _),
      show "couldn\x27t " ++ ("query " ++ titleOf req) =
        "couldn\x27t query " ++ titleOf req from
        (String.append_assoc _ _ _).symm]

theorem claim_C4_witness :
    titleOf userByIdReq = "user" ∧
    query (some raisingDrizzle) userByIdReq =
      (elysiaError 500 ("couldn\x27t query " ++ titleOf userByIdReq),
        .errPassthrough) :=
  ⟨by decide,
    claim_C4_raise_yields_couldnt_query.2 raisingDrizzle userByIdReq
      "connection reset" rfl⟩

/-- C5: a request that supplies a custom query function executes that
function verbatim through guarded execution — the built operation is
the custom function itself — and the identifier, filter and ordering
fields are all ignored (the outcome equals that of the request with
those fields absent). -/
theorem claim_C5_custom_query_precedence (handle : Option Drizzle)
    (req : Request) (c : Drizzle → OpResult) (h : req.complex = some c) :
    (∀ d : Drizzle, buildOp req d = c d) ∧
    query handle req =
      query handle { req with idPair := none, filter := none, order := none } := by
  obtain ⟨t, s, ip, f, o, comp, q⟩ := req
  obtain rfl : comp = some c := h
  exact ⟨fun d => rfl, rfl⟩

theorem claim_C5_witness :
    (∀ d : Drizzle, buildOp customWithIdReq d = customOp d) ∧
    query (some rowsDrizzle) customWithIdReq =
      query (some rowsDrizzle)
        { customWithIdReq with idPair := none, filter := none, order := none } :=
  claim_C5_custom_query_precedence (some rowsDrizzle) customWithIdReq
    customOp rfl

/-- C10: a guarded execution that completes normally with a non-null,
non-array object owning both a `code` and a `response` property is
misclassified by the dispatcher's error-detection test and returned
verbatim (branch `errPassthrough`, so not-found classification,
conversion, encoding, validation and field stripping are all skipped),
whatever the opaque flag is. -/
theorem claim_C10_code_response_record_passthrough (d : Drizzle)
    (req : Request) (l : List (String × JVal))
    (hok : buildOp req d = .ok (.obj l))
    (hcode : (JVal.obj l).hasOwn "code" = true)
    (hresp : (JVal.obj l).hasOwn "response" = true) :
    query (some d) req = (.obj l, .errPassthrough) := by
  rw [query_ok_eq hok]
  exact queryResultOf_errLike (by
    simp [errLike, JVal.isTypeofObject, JVal.isArray, JVal.isNull, hcode, hresp])

theorem claim_C10_witness :
    query (some rowsDrizzle) customOnlyReq =
      (.obj [("code", .str "ABC"), ("response", .str "ok"), ("id", .num 1)],
        .errPassthrough) :=
  claim_C10_code_response_record_passthrough rowsDrizzle customOnlyReq
    [("code", .str "ABC"), ("response", .str "ok"), ("id", .num 1)] rfl rfl rfl

/-- C6: the display name used in diagnostics is the table name verbatim
in plural mode; in singular mode it is the table name with its last
character stripped, a resulting trailing "ie" additionally rewritten to
"y": "categories" gives "category", "entries" gives "entry", "users"
gives "user". -/
theorem claim_C6_display_name :
    (∀ name : String, _formatItem name true = name) ∧
    (∀ name : String,
        _formatItem name false =
          if jsEndsWith (name.dropRight 1) "ie" then
            (name.dropRight 1).dropRight 2 ++ "y"
          else name.dropRight 1) ∧
    _formatItem "categories" false = "category" ∧
    _formatItem "entries" false = "entry" ∧
    _formatItem "users" false = "user" :=
  ⟨fun _ => rfl, fun _ => rfl, by decide, by decide, by decide⟩

/-- C1 (failing input): with the opaque flag set and the database
handle unbound, the dispatcher returns the 503 elysia error object —
not `undefined` — because the error passthrough ignores the opaque
flag; the opaque projection claimed by the spec (and by the function's
own doc comment and return type) does not hold for the
service-unavailable and query-failed outcomes. -/
theorem claim_C1_opaque_mode_leaks_error_object :
    userByIdOpaqueReq.opq = true ∧
    query none userByIdOpaqueReq =
      (elysiaError 503 "database is not ready", .errPassthrough) ∧
    (elysiaError 503 "database is not ready").isUndef = false :=
  ⟨rfl, rfl, rfl⟩

/-- C2: in singular mode a request whose execution succeeded is
classified not-found exactly when the raw result is absent
(`undefined`) or an array whose length is not exactly one, in which
case the outcome is `undefined` under the opaque flag and the 404
"{display name} not found" error otherwise; in plural mode the
not-found classification never applies, and a read yielding zero rows
returns the empty array. -/
theorem claim_C2_not_found_classification :
    (∀ (d : Drizzle) (req : Request) (values : JVal),
        req.schema.isArray = false →
        buildOp req d = .ok values →
        (((query (some d) req).2 = .notFound ↔
            (values = .undef ∨ ∃ xs, values = .arr xs ∧ xs.length ≠ 1)) ∧
          ((query (some d) req).2 = .notFound →
            query (some d) req =
              (if req.opq then .undef
                else elysiaError 404 (titleOf req ++ " not found"),
                .notFound)))) ∧
    (∀ (d : Drizzle) (req : Request) (values : JVal),
        req.schema.isArray = true →
        buildOp req d = .ok values →
        (query (some d) req).2 ≠ .notFound) ∧
    (∀ (s : ArraySchema) (d : Drizzle) (req : Request),
        req.schema = s.ops →
        buildOp req d = .ok (.arr []) →
        query (some d) req = (.arr [], .success)) := by
  refine ⟨?_, ?_, ?_⟩
  · intro d req values hsing hok
    rw [query_ok_eq hok]
    constructor
    · rw [queryResultOf_snd_eq_notFound]
      constructor
      · rintro ⟨herr, hnf⟩
        unfold notFoundCond at hnf
        rw [hsing] at hnf
        cases values <;>
          simp_all [JVal.isArrayLenNeOne, JVal.isUndef]
      · rintro (rfl | ⟨xs, rfl, hlen⟩)
        · simp [errLike, notFoundCond, hsing, JVal.isTypeofObject,
            JVal.isArray, JVal.isUndef, JVal.isArrayLenNeOne]
        · simp [errLike, notFoundCond, hsing, JVal.isTypeofObject,
            JVal.isArray, JVal.isNull, JVal.isUndef,
            JVal.isArrayLenNeOne, hlen]
    · intro h
      obtain ⟨herr, hnf⟩ :=
        (queryResultOf_snd_eq_notFound req.schema (titleOf req)
          req.opq values).mp h
      exact queryResultOf_notFound_result herr hnf
  · intro d req values hplural hok
    rw [query_ok_eq hok]
    simp [queryResultOf_snd_eq_notFound, notFoundCond, hplural]
  · intro s d req hschema hok
    rw [query_ok_eq hok, hschema]
    rfl

theorem claim_C2_witness :
    (((query (some emptyRowsDrizzle) userByIdReq).2 = .notFound ↔
        ((JVal.arr []) = .undef ∨
          ∃ xs, (JVal.arr []) = .arr xs ∧ xs.length ≠ 1)) ∧
      ((query (some emptyRowsDrizzle) userByIdReq).2 = .notFound →
        query (some emptyRowsDrizzle) userByIdReq =
          (if userByIdReq.opq then .undef
            else elysiaError 404 (titleOf userByIdReq ++ " not found"),
            .notFound))) ∧
    (query (some emptyRowsDrizzle) usersListReq).2 ≠ .notFound ∧
    query (some emptyRowsDrizzle) usersListReq = (.arr [], .success) :=
  ⟨claim_C2_not_found_classification.1 emptyRowsDrizzle userByIdReq
      (.arr []) rfl rfl,
    claim_C2_not_found_classification.2.1 emptyRowsDrizzle usersListReq
      (.arr []) rfl rfl,
    claim_C2_not_found_classification.2.2 usersArraySchema
      emptyRowsDrizzle usersListReq rfl rfl⟩

/-- C7: when the encoding pass raises, the failure is swallowed: the
pipeline continues with the pre-encoding converted value, and the
outcome is the one the same request yields with the encoding pass
disabled — an encoding failure by itself never changes the outcome
surfaced to the caller. -/
theorem claim_C7_encode_failure_swallowed (d : Drizzle) (req : Request)
    (values : JVal) (e : String)
    (hok : buildOp req d = .ok values)
    (henc : req.schema.encode (convertedOf req.schema values) =
      .error e) :
    encodedOf req.schema values = convertedOf req.schema values ∧
    query (some d) req =
      query (some d) { req with schema := req.schema.withIdEncode } := by
  have h1 : encodedOf req.schema values = convertedOf req.schema values := by
    unfold encodedOf
    rw [henc]
  refine ⟨h1, ?_⟩
  rw [query_ok_eq hok,
    query_ok_eq
      (show buildOp { req with schema := req.schema.withIdEncode } d =
        .ok values from hok)]
  show queryResultOf req.schema _ _ _ =
    queryResultOf req.schema.withIdEncode _ _ _
  unfold queryResultOf
  rw [show notFoundCond req.schema.withIdEncode values =
      notFoundCond req.schema values from rfl,
    show encodedOf req.schema.withIdEncode values =
      convertedOf req.schema values from rfl, h1]
  rfl

theorem claim_C7_witness :
    encodedOf failingEncodeSchema (.arr [aliceRow]) =
      convertedOf failingEncodeSchema (.arr [aliceRow]) ∧
    query (some rowsDrizzle) encodeFailReq =
      query (some rowsDrizzle)
        { encodeFailReq with schema := failingEncodeSchema.withIdEncode } :=
  claim_C7_encode_failure_swallowed rowsDrizzle encodeFailReq
    (.arr [aliceRow]) "unable to encode value" rfl rfl

/-- C8: when the converted (possibly re-encoded) value fails the
schema validity check, the outcome is `undefined` in opaque mode and
otherwise the status-500 error "couldn't retrieve {display name}" —
an ordinary return of the total dispatcher, never a raised
exception. -/
theorem claim_C8_check_failure_outcome (d : Drizzle) (req : Request)
    (values : JVal)
    (hok : buildOp req d = .ok values)
    (herr : errLike values = false)
    (hnf : notFoundCond req.schema values = false)
    (hchk : req.schema.check (encodedOf req.schema values) = false) :
    query (some d) req =
      (if req.opq then .undef
        else elysiaError 500 ("couldn\x27t retrieve " ++ titleOf req),
        .checkFailed) := by
  rw [query_ok_eq hok]
  simp [queryResultOf, herr, hnf, hchk]

theorem claim_C8_witness :
    query (some invalidRowDrizzle) userByIdReq =
      (if userByIdReq.opq then .undef
        else elysiaError 500 ("couldn\x27t retrieve " ++ titleOf userByIdReq),
        .checkFailed) :=
  claim_C8_check_failure_outcome invalidRowDrizzle userByIdReq
    (.arr [.obj [("id", .num 1)]]) rfl rfl rfl rfl

/-- C9: on the success path of a singular object-schema request whose
raw row already satisfies the schema, the returned value keeps every
schema-declared property unchanged and drops every undeclared one (the
clean-and-cast step is the projection onto the declared properties),
and is the row itself when the row has no undeclared properties. -/
theorem claim_C9_success_projects_declared_fields (s : ObjectSchema)
    (d : Drizzle) (req : Request) (l : List (String × JVal))
    (hschema : req.schema = s.ops)
    (hok : buildOp req d = .ok (.arr [.obj l]))
    (hchk : s.check (.obj l) = true)
    (hnd : (l.map Prod.fst).Nodup) :
    query (some d) req =
      (.obj (l.filter (fun p => s.fields.any (fun q => q.1 == p.1))),
        .success) ∧
    ((∀ p ∈ l, s.fields.any (fun q => q.1 == p.1) = true) →
      query (some d) req = (.obj l, .success)) := by
  have he : encodedOf s.ops (.arr [.obj l]) = .obj l :=
    ObjectSchema.convert_of_check hchk hnd
  have hmain : query (some d) req =
      (.obj (l.filter (fun p => s.fields.any (fun q => q.1 == p.1))),
        .success) := by
    rw [query_ok_eq hok, hschema,
      queryResultOf_success
        (show errLike (JVal.arr [JVal.obj l]) = false from rfl)
        (show notFoundCond s.ops (JVal.arr [JVal.obj l]) = false from rfl)
        (by rw [he]; exact hchk), he]
    show (s.cast (s.clean (.obj l)), Branch.success) = _
    rw [ObjectSchema.cast_of_check (ObjectSchema.check_clean hchk)]
    rfl
  refine ⟨hmain, fun hall => ?_⟩
  rw [hmain, List.filter_eq_self.mpr hall]

theorem claim_C9_witness :
    query (some rowsDrizzle) userByIdReq =
      (.obj ([("id", JVal.num 1), ("name", .str "alice"),
          ("extra", .bool true)].filter
            (fun p => userSchema.fields.any (fun q => q.1 == p.1))),
        .success) ∧
    query (some bobRowDrizzle) userByIdReq =
      (.obj [("id", .num 2), ("name", .str "bob")], .success) :=
  ⟨(claim_C9_success_projects_declared_fields userSchema rowsDrizzle
      userByIdReq
      [("id", .num 1), ("name", .str "alice"), ("extra", .bool true)]
      rfl rfl rfl (by decide)).1,
    (claim_C9_success_projects_declared_fields userSchema bobRowDrizzle
      userByIdReq [("id", .num 2), ("name", .str "bob")]
      rfl rfl rfl (by decide)).2 (by decide)⟩

end DrizzleElysiaQuery
